import Mathlib

/-!
Shallow embedding of the `earthservers-reclaim` rating service.

The server (`src/apps/ratings-server/src/{api,integrity,models}.rs`) keeps its
state in four Postgres tables; we model a database as explicit lists of rows.
Timestamps (`NOW()`, `chrono`) are modelled as naturals passed in explicitly;
Postgres `float8` averages over small integers are modelled exactly as
rationals.  SHA-256 is abstracted as a parameter `hashFn : String → String`:
every definition that the Rust code routes through `sha2::Sha256` is
parametric in the digest, while the serialization fed to the digest
(`compute_change_hash`'s `format!` string) is modelled exactly.
-/

/-- Shared shape of the SQL `INSERT ... ON CONFLICT (key) DO UPDATE`
statements: replace the row matching the key predicate if one exists,
append the new row otherwise. -/
def upsertBy {α : Type} (p : α → Bool) (row : α) (l : List α) : List α :=
  if l.any p then l.map (fun a => if p a then row else a) else l ++ [row]

instance {ε α : Type} [DecidableEq ε] [DecidableEq α] : DecidableEq (Except ε α)
  | Except.ok a, Except.ok b =>
    if h : a = b then isTrue (by rw [h]) else isFalse (by intro hc; cases hc; exact h rfl)
  | Except.ok _, Except.error _ => isFalse (by intro hc; cases hc)
  | Except.error _, Except.ok _ => isFalse (by intro hc; cases hc)
  | Except.error e, Except.error f =>
    if h : e = f then isTrue (by rw [h]) else isFalse (by intro hc; cases hc; exact h rfl)

namespace RatingsServer

/-- Row of `domain_ratings` (the `Rating` struct of `models.rs`). -/
structure Rating where
  id : Int
  domain_url : String
  user_hash : String
  trust_level : Int
  bias_level : Int
  comment : Option String
  created_at : Nat
  updated_at : Nat
deriving DecidableEq

/-- Row of `rating_audit_log`, as read back by `verify_rating_integrity`. -/
structure AuditRow where
  id : Int
  rating_id : Int
  domain_url : String
  user_hash : String
  action_type : String
  trust_level : Option Int
  bias_level : Option Int
  comment : Option String
  changed_at : Nat
  change_hash : String
deriving DecidableEq

/-- Row of `domain_rating_aggregates`.  The two distributions are `jsonb`
objects mapping a level rendered as text to its count; a `jsonb` object is a
finite map with canonically ordered keys, modelled as a sorted association
list. -/
structure AggregateRow where
  domain_url : String
  avg_trust_level : Rat
  avg_bias_level : Rat
  total_ratings : Int
  trust_distribution : List (String × Int)
  bias_distribution : List (String × Int)
  updated_at : Nat
deriving DecidableEq

/-- Row of `rating_votes`. -/
structure VoteRow where
  rating_id : Int
  voter_hash : String
  is_helpful : Bool
deriving DecidableEq

/-- The relational store: one list per table, plus the `BIGSERIAL` counter
backing `domain_ratings.id`. -/
structure Db where
  ratings : List Rating
  auditLog : List AuditRow
  aggregates : List AggregateRow
  votes : List VoteRow
  nextId : Int
deriving DecidableEq

/-- HTTP status `400 BAD_REQUEST`. -/
def BAD_REQUEST : Nat := 400

/-- HTTP status `404 NOT_FOUND`. -/
def NOT_FOUND : Nat := 404

/-- HTTP status `500 INTERNAL_SERVER_ERROR`. -/
def INTERNAL_SERVER_ERROR : Nat := 500

/-- Serialization of an optional integer column: Rust
`opt.map_or(String::new(), |t| t.to_string())`. -/
def optIntStr (o : Option Int) : String :=
  match o with
  | some v => toString v
  | none => ""

/-- Serialization of an optional text column: Rust `opt.unwrap_or("")`. -/
def optStr (o : Option String) : String :=
  match o with
  | some s => s
  | none => ""

/-- The exact preimage string built by `compute_change_hash` in
`integrity.rs`: `format!("{}|{}|{}|{}|{}|{}", rating_id, domain_url,
user_hash, trust, bias, comment)` with absent values as the empty string. -/
def changeData (rating_id : Int) (domain_url user_hash : String)
    (trust_level bias_level : Option Int) (comment : Option String) : String :=
  toString rating_id ++ "|" ++ domain_url ++ "|" ++ user_hash ++ "|"
    ++ optIntStr trust_level ++ "|" ++ optIntStr bias_level ++ "|"
    ++ optStr comment

/-- Model of `compute_change_hash`: the hex-encoded SHA-256 digest of
`changeData`, with the digest abstracted as `hashFn`. -/
def compute_change_hash (hashFn : String → String) (rating_id : Int)
    (domain_url user_hash : String) (trust_level bias_level : Option Int)
    (comment : Option String) : String :=
  hashFn (changeData rating_id domain_url user_hash trust_level bias_level comment)

/-- Per-entry record of the integrity report (`AuditEntry` in
`integrity.rs`). -/
structure AuditEntry where
  id : Int
  action_type : String
  trust_level : Option Int
  bias_level : Option Int
  changed_at : Nat
  hash_valid : Bool
deriving DecidableEq

/-- The `IntegrityReport` response struct of `integrity.rs`. -/
structure IntegrityReport where
  rating_id : Int
  is_valid : Bool
  total_changes : Int
  created_at : Option Nat
  last_modified : Option Nat
  audit_entries : List AuditEntry
deriving DecidableEq

/-- Ascending `changed_at` order used by the audit-trail query
(`ORDER BY changed_at ASC`). -/
def changedAtLe (a b : AuditRow) : Prop := a.changed_at ≤ b.changed_at

instance : DecidableRel changedAtLe := fun a b => Nat.decLe a.changed_at b.changed_at

instance : IsTotal AuditRow changedAtLe := ⟨fun a b => Nat.le_total a.changed_at b.changed_at⟩

instance : IsTrans AuditRow changedAtLe := ⟨fun _ _ _ h h' => Nat.le_trans h h'⟩

/-- Result rows of the audit-trail query in `verify_rating_integrity`:
`SELECT ... FROM rating_audit_log WHERE rating_id = $1 ORDER BY changed_at ASC`. -/
def auditTrailQuery (db : Db) (rid : Int) : List AuditRow :=
  List.insertionSort changedAtLe (db.auditLog.filter (fun a => a.rating_id == rid))

/-- Loop body of `verify_rating_integrity`: each fetched row is turned into a
report entry whose `hash_valid` compares the recomputed hash with the stored
one. -/
def mkAuditEntry (hashFn : String → String) (rid : Int) (a : AuditRow) : AuditEntry :=
  { id := a.id
    action_type := a.action_type
    trust_level := a.trust_level
    bias_level := a.bias_level
    changed_at := a.changed_at
    hash_valid :=
      compute_change_hash hashFn rid a.domain_url a.user_hash
        a.trust_level a.bias_level a.comment == a.change_hash }

/-- Entries of the integrity report built by `verify_rating_integrity`'s
loop (`integrity.rs`): the audit trail is fetched in `changed_at` order and
each entry's hash is recomputed and compared.  The whole endpoint: 404 when
no rating row has the requested id; otherwise `is_valid` is the conjunction
of the per-entry flags (the Rust loop clears an `is_valid` accumulator on
any mismatch), and the report carries the entry count and the first/last
timestamps. -/
def reportEntries (hashFn : String → String) (db : Db) (rid : Int) : List AuditEntry :=
  (auditTrailQuery db rid).map (mkAuditEntry hashFn rid)

/-- Model of `verify_rating_integrity` itself; see `reportEntries` for the
per-entry loop. -/
def verify_rating_integrity (hashFn : String → String) (db : Db) (rid : Int) :
    Except Nat IntegrityReport :=
  if db.ratings.any (fun r => r.id == rid) then
    Except.ok
      { rating_id := rid
        is_valid := (reportEntries hashFn db rid).all (fun e => e.hash_valid)
        total_changes := ((reportEntries hashFn db rid).length : Int)
        created_at := (reportEntries hashFn db rid).head?.map (fun e => e.changed_at)
        last_modified := (reportEntries hashFn db rid).getLast?.map (fun e => e.changed_at)
        audit_entries := reportEntries hashFn db rid }
  else
    Except.error NOT_FOUND

/-- Canonical `jsonb` key order: shorter keys first, equal lengths byte-wise. -/
def jsonbKeyLe (p q : String × Int) : Prop :=
  p.1.length < q.1.length ∨ (p.1.length = q.1.length ∧ p.1 ≤ q.1)

instance : DecidableRel jsonbKeyLe := fun p q => by
  unfold jsonbKeyLe; infer_instance

instance : IsTotal (String × Int) jsonbKeyLe := by
  constructor
  intro p q
  rcases Nat.lt_trichotomy p.1.length q.1.length with h | h | h
  · exact Or.inl (Or.inl h)
  · rcases le_total p.1 q.1 with h' | h'
    · exact Or.inl (Or.inr ⟨h, h'⟩)
    · exact Or.inr (Or.inr ⟨h.symm, h'⟩)
  · exact Or.inr (Or.inl h)

instance : IsTrans (String × Int) jsonbKeyLe := by
  constructor
  rintro p q r (h | ⟨h, h'⟩) (g | ⟨g, g'⟩)
  · exact Or.inl (Nat.lt_trans h g)
  · exact Or.inl (g ▸ h)
  · exact Or.inl (h ▸ g)
  · exact Or.inr ⟨h.trans g, le_trans h' g'⟩

/-- Distribution object built by `refresh_aggregates`'s
`jsonb_object_agg(level::text, count)`: the window function
`COUNT(*) OVER (PARTITION BY level)` attaches to every row the count of its
level, and aggregating the resulting key/value pairs into a `jsonb` object
collapses the duplicate keys (their values are equal) into one pair per
distinct level, with keys in canonical `jsonb` order. -/
def jsonbDistribution (levels : List Int) : List (String × Int) :=
  List.insertionSort jsonbKeyLe
    ((levels.dedup).map
      (fun l => (toString l, ((levels.filter (fun x => x == l)).length : Int))))

/-- Aggregate row computed by `refresh_aggregates`'s `SELECT` over the
domain's rating rows: `AVG` of each level column, `COUNT(*)`, and the two
`jsonb` distribution objects. -/
def computedAggregate (rows : List Rating) (domain_url : String) (now : Nat) :
    AggregateRow :=
  { domain_url := domain_url
    avg_trust_level := ((rows.map (fun r => r.trust_level)).sum : Int) / (rows.length : Rat)
    avg_bias_level := ((rows.map (fun r => r.bias_level)).sum : Int) / (rows.length : Rat)
    total_ratings := (rows.length : Int)
    trust_distribution := jsonbDistribution (rows.map (fun r => r.trust_level))
    bias_distribution := jsonbDistribution (rows.map (fun r => r.bias_level))
    updated_at := now }

/-- Model of `refresh_aggregates` (`api.rs`): one `INSERT ... SELECT ... ON
CONFLICT DO UPDATE` statement.  The inner `SELECT` scans the domain's rating
rows; with `GROUP BY` over an empty scan it yields no row, so nothing is
inserted or updated and the store is unchanged.  Otherwise the computed row
(averages, count, distribution objects) replaces the previous aggregate row
for the domain, or is appended if none exists; `updated_at` becomes `now`
(`NOW()` on conflict, the column default on first insert — the migrations
directory is not part of the sources; the default mirrors the spec's
`last_updated = now`). -/
def refresh_aggregates (db : Db) (domain_url : String) (now : Nat) : Db :=
  if (db.ratings.filter (fun r => r.domain_url == domain_url)).isEmpty then db
  else
    { db with aggregates :=
        (upsertBy (fun a => a.domain_url == domain_url)
          (computedAggregate (db.ratings.filter (fun r => r.domain_url == domain_url))
            domain_url now)
          db.aggregates) }

/-- Request body of `POST /api/ratings` (`SubmitRatingRequest` in
`models.rs`). -/
structure SubmitRatingRequest where
  domain_url : String
  user_hash : String
  trust_level : Int
  bias_level : Int
  comment : Option String
deriving DecidableEq

/-- The upsert statement of `submit_rating`: `INSERT INTO domain_ratings ...
ON CONFLICT (domain_url, user_hash) DO UPDATE SET trust_level, bias_level,
comment, updated_at = NOW() RETURNING ...`.  On first insert `created_at`
and `updated_at` take their column defaults (the migrations directory is not
part of the sources; the defaults mirror the spec's `created_at =
updated_at = now`). -/
def upsertRating (db : Db) (req : SubmitRatingRequest) (now : Nat) : Rating × Db :=
  match db.ratings.find?
      (fun r => r.domain_url == req.domain_url && r.user_hash == req.user_hash) with
  | some r =>
    let r' := { r with
      trust_level := req.trust_level
      bias_level := req.bias_level
      comment := req.comment
      updated_at := now }
    (r', { db with ratings := db.ratings.map (fun s => if s.id == r.id then r' else s) })
  | none =>
    let r' : Rating :=
      { id := db.nextId
        domain_url := req.domain_url
        user_hash := req.user_hash
        trust_level := req.trust_level
        bias_level := req.bias_level
        comment := req.comment
        created_at := now
        updated_at := now }
    (r', { db with ratings := db.ratings ++ [r'], nextId := db.nextId + 1 })

/-- Model of `submit_rating` (`api.rs`).  After range-validating the levels
it runs exactly two SQL statements against the pool — the rating upsert and
then `refresh_aggregates` — each auto-committed on its own; there is no
enclosing transaction and no statement touches `rating_audit_log`.
`refreshFails` injects a database error into the second statement (any sqlx
error is mapped to 500); because the first statement has already committed,
its effect survives such a failure. -/
def submit_rating (refreshFails : Bool) (db : Db) (req : SubmitRatingRequest)
    (now : Nat) : Except Nat Rating × Db :=
  if req.trust_level < 1 ∨ req.trust_level > 5 then
    (Except.error BAD_REQUEST, db)
  else if req.bias_level < 1 ∨ req.bias_level > 4 then
    (Except.error BAD_REQUEST, db)
  else
    let u := upsertRating db req now
    if refreshFails then
      (Except.error INTERNAL_SERVER_ERROR, u.2)
    else
      (Except.ok u.1, refresh_aggregates u.2 req.domain_url now)

/-- The served aggregate (`RatingAggregate` in `models.rs`): the columns
`get_domain_rating` selects — everything except `updated_at`. -/
structure RatingAggregate where
  domain_url : String
  avg_trust_level : Rat
  avg_bias_level : Rat
  total_ratings : Int
  trust_distribution : List (String × Int)
  bias_distribution : List (String × Int)
deriving DecidableEq

/-- Columns selected by `get_domain_rating`: everything of the aggregate
row except `updated_at`. -/
def serveAggregate (a : AggregateRow) : RatingAggregate :=
  { domain_url := a.domain_url
    avg_trust_level := a.avg_trust_level
    avg_bias_level := a.avg_bias_level
    total_ratings := a.total_ratings
    trust_distribution := a.trust_distribution
    bias_distribution := a.bias_distribution }

/-- Model of `get_domain_rating` (`api.rs`): select the aggregate row for
the domain, 404 when none exists. -/
def get_domain_rating (db : Db) (domain : String) : Except Nat RatingAggregate :=
  match db.aggregates.find? (fun a => a.domain_url == domain) with
  | some a => Except.ok (serveAggregate a)
  | none => Except.error NOT_FOUND

/-- Descending `created_at` order of the reviews query
(`ORDER BY created_at DESC`). -/
def createdAtGe (a b : Rating) : Prop := b.created_at ≤ a.created_at

instance : DecidableRel createdAtGe := fun a b => Nat.decLe b.created_at a.created_at

instance : IsTotal Rating createdAtGe := ⟨fun a b => (Nat.le_total b.created_at a.created_at)⟩

instance : IsTrans Rating createdAtGe := ⟨fun _ _ _ h h' => Nat.le_trans h' h⟩

/-- Model of `get_domain_reviews` (`api.rs`): `SELECT ... FROM domain_ratings
WHERE domain_url = $1 ORDER BY created_at DESC LIMIT 50`. -/
def get_domain_reviews (db : Db) (domain : String) : List Rating :=
  (List.insertionSort createdAtGe
    (db.ratings.filter (fun r => r.domain_url == domain))).take 50

/-- The `IntegrityStatus` response struct of `integrity.rs`. -/
structure IntegrityStatus where
  is_healthy : Bool
  total_ratings : Int
  total_audit_entries : Int
  invalid_audit_entries : Int
  orphaned_ratings : Int
  checked_at : Nat
deriving DecidableEq

/-- Model of `integrity_status` (`integrity.rs`): global counts, the orphan
count via `NOT EXISTS`, a hard-coded `invalid_entries = 0` (hash
verification is skipped in the status check as the source comments), and
`is_healthy = orphaned == 0 && invalid_entries == 0`.  First, the orphan
count: `SELECT COUNT(*) FROM domain_ratings r WHERE NOT EXISTS (SELECT 1
FROM rating_audit_log a WHERE a.rating_id = r.id)`. -/
def orphanedCount (db : Db) : Int :=
  ((db.ratings.filter
    (fun r => !(db.auditLog.any (fun a => a.rating_id == r.id)))).length : Int)

/-- The status response assembled by `integrity_status`. -/
def integrity_status (db : Db) (now : Nat) : IntegrityStatus :=
  { is_healthy := orphanedCount db == 0 && (0 : Int) == 0
    total_ratings := (db.ratings.length : Int)
    total_audit_entries := (db.auditLog.length : Int)
    invalid_audit_entries := 0
    orphaned_ratings := orphanedCount db
    checked_at := now }

/-- Modelled from the spec: §4.3 `AuditLedger.append` is missing from the
sources — no code under `src/` ever writes `rating_audit_log` (the
migrations directory referenced by `main.rs` is absent); only its readers
exist.  Following the spec's words, `append` inserts one immutable row whose
`change_hash` is the digest over the fixed-order concatenation of
(rating_id, domain_url, user_hash, trust_level, bias_level, comment). -/
def auditLedgerAppend (hashFn : String → String) (db : Db) (entryId rating_id : Int)
    (domain_url user_hash : String) (trust_level bias_level : Int)
    (comment : Option String) (action_type : String) (now : Nat) : Db :=
  { db with auditLog := db.auditLog ++
      [{ id := entryId
         rating_id := rating_id
         domain_url := domain_url
         user_hash := user_hash
         action_type := action_type
         trust_level := some trust_level
         bias_level := some bias_level
         comment := comment
         changed_at := now
         change_hash :=
           compute_change_hash hashFn rating_id domain_url user_hash
             (some trust_level) (some bias_level) comment }] }

/-- Count of helpful votes for a rating, as `ModerationSignals` data in
`rating_votes` (the server's `domain_ratings` table itself carries no
`helpful_count` column). -/
def helpfulVotes (db : Db) (r : Rating) : Nat :=
  (db.votes.filter (fun v => v.rating_id == r.id && v.is_helpful)).length

/-- Order stated by the spec for `get_by_domain`: helpful count descending,
ties by `created_at` descending. -/
def specReviewOrder (db : Db) (a b : Rating) : Prop :=
  helpfulVotes db b < helpfulVotes db a ∨
    (helpfulVotes db b = helpfulVotes db a ∧ b.created_at ≤ a.created_at)

instance (db : Db) : DecidableRel (specReviewOrder db) := fun a b => by
  unfold specReviewOrder; infer_instance

/-- Definition following the spec's words (§4.1 `get_by_domain`), for
comparison with `get_domain_reviews`: the domain's rating rows ordered by
helpful count descending, then `created_at` descending, capped at 50. -/
def spec_get_by_domain (db : Db) (domain : String) : List Rating :=
  (List.insertionSort (specReviewOrder db)
    (db.ratings.filter (fun r => r.domain_url == domain))).take 50

end RatingsServer

namespace Desktop

/-!
The desktop-local variant (`src/apps/desktop/src-tauri/src/ratings.rs`,
`RatingManager` over SQLite).  The spec declares it out of scope for the
core guarantees, but several claims cite its aggregate and listing code, so
the relevant functions are embedded as well.  SQLite `TEXT` timestamps
(strings of epoch seconds) are modelled as `String` with SQLite's byte-wise
text ordering, i.e. Lean's `String` order.
-/

/-- Row of the desktop `domain_ratings` table (`DomainRating`). -/
structure DomainRating where
  id : Int
  domain_id : Int
  user_id : String
  trust_rating : Int
  bias_rating : Int
  review_text : Option String
  created_at : String
  updated_at : Option String
  helpful_count : Int
  reported : Bool
deriving DecidableEq

/-- Row of the desktop `domain_rating_aggregates` table; the distributions
are JSON-serialized arrays, modelled as integer lists. -/
structure RatingAggregate where
  domain_id : Int
  avg_trust : Rat
  avg_bias : Rat
  total_ratings : Int
  trust_distribution : List Int
  bias_distribution : List Int
  last_updated : Option String
deriving DecidableEq

/-- The desktop store. -/
structure Db where
  ratings : List DomainRating
  aggregates : List RatingAggregate
deriving DecidableEq

/-- Trust distribution built by `update_aggregates`: a five-slot
zero-filled vector where slot `i` counts ratings with `trust_rating =
i + 1` (values outside 1..5 are ignored by the range guard). -/
def trustDistArray (rows : List DomainRating) : List Int :=
  (List.range 5).map
    (fun i => ((rows.filter (fun r => r.trust_rating == (i : Int) + 1)).length : Int))

/-- Bias distribution built by `update_aggregates`: four zero-filled slots
for bias values 1..4. -/
def biasDistArray (rows : List DomainRating) : List Int :=
  (List.range 4).map
    (fun i => ((rows.filter (fun r => r.bias_rating == (i : Int) + 1)).length : Int))

/-- Aggregate row computed by the desktop `update_aggregates` from the
domain's rating rows. -/
def computedAggregate (rows : List DomainRating) (domain_id : Int) (now : String) :
    RatingAggregate :=
  { domain_id := domain_id
    avg_trust :=
      if rows.isEmpty then 3
      else ((rows.map (fun r => r.trust_rating)).sum : Int) / (rows.length : Rat)
    avg_bias :=
      if rows.isEmpty then 5 / 2
      else ((rows.map (fun r => r.bias_rating)).sum : Int) / (rows.length : Rat)
    total_ratings := (rows.length : Int)
    trust_distribution := trustDistArray rows
    bias_distribution := biasDistArray rows
    last_updated := some now }

/-- Model of the desktop `update_aggregates` (`ratings.rs`):
`COALESCE(AVG(trust_rating), 3.0)` and `COALESCE(AVG(bias_rating), 2.5)`
(the averages are `NULL` exactly when the domain has no rows), zero-filled
distributions, and an upsert keyed on `domain_id` with `last_updated =
now`. -/
def update_aggregates (db : Db) (domain_id : Int) (now : String) : Db :=
  { db with aggregates :=
      (upsertBy (fun a => a.domain_id == domain_id)
        (computedAggregate (db.ratings.filter (fun r => r.domain_id == domain_id))
          domain_id now)
        db.aggregates) }

/-- Model of the desktop `get_aggregate`: the stored aggregate row for the
domain, if any. -/
def get_aggregate (db : Db) (domain_id : Int) : Option RatingAggregate :=
  db.aggregates.find? (fun a => a.domain_id == domain_id)

/-- Order of the desktop `get_domain_ratings` query:
`ORDER BY helpful_count DESC, created_at DESC`. -/
def helpfulOrder (a b : DomainRating) : Prop :=
  b.helpful_count < a.helpful_count ∨
    (b.helpful_count = a.helpful_count ∧ b.created_at ≤ a.created_at)

instance : DecidableRel helpfulOrder := fun a b => by
  unfold helpfulOrder; infer_instance

instance : IsTotal DomainRating helpfulOrder := by
  constructor
  intro a b
  rcases lt_trichotomy a.helpful_count b.helpful_count with h | h | h
  · exact Or.inr (Or.inl h)
  · rcases le_total a.created_at b.created_at with h' | h'
    · exact Or.inr (Or.inr ⟨h, h'⟩)
    · exact Or.inl (Or.inr ⟨h.symm, h'⟩)
  · exact Or.inl (Or.inl h)

instance : IsTrans DomainRating helpfulOrder := by
  constructor
  rintro a b c (h | ⟨h, h'⟩) (g | ⟨g, g'⟩)
  · exact Or.inl (lt_trans g h)
  · exact Or.inl (g ▸ h)
  · exact Or.inl (h ▸ g)
  · exact Or.inr ⟨g.trans h, le_trans g' h'⟩

/-- Model of the desktop `get_domain_ratings` (`ratings.rs`): the domain's
rows ordered by `helpful_count DESC, created_at DESC`, with an optional
`LIMIT` clause appended only when the caller supplies one. -/
def get_domain_ratings (db : Db) (domain_id : Int) (limit : Option Nat) :
    List DomainRating :=
  let sorted :=
    List.insertionSort helpfulOrder (db.ratings.filter (fun r => r.domain_id == domain_id))
  match limit with
  | some l => sorted.take l
  | none => sorted

/-- Aggregate fields other than `last_updated`, the projection compared by
the idempotence claim. -/
def aggregateData (a : RatingAggregate) :
    Int × Rat × Rat × Int × List Int × List Int :=
  (a.domain_id, a.avg_trust, a.avg_bias, a.total_ratings,
   a.trust_distribution, a.bias_distribution)

end Desktop

namespace Fixtures

open RatingsServer

/-- Concrete digest used to instantiate the abstract `hashFn` in witnesses
and counterexamples: the identity on the serialized change data.  Every
statement below that mentions it is about the verification logic, not about
SHA-256 itself. -/
def idHash : String → String := fun s => s

/-- An empty store, as after the migrations create the tables. -/
def emptyDb : Db :=
  { ratings := [], auditLog := [], aggregates := [], votes := [], nextId := 1 }

/-- Scenario A request: trust 5, bias 2 for example.com by u1. -/
def reqA : SubmitRatingRequest :=
  { domain_url := "example.com", user_hash := "u1", trust_level := 5
    bias_level := 2, comment := none }

/-- Store after a successful Scenario A submission at time 10. -/
def dbA : Db := (submit_rating false emptyDb reqA 10).2

/-- The rating row inserted by the Scenario A submission. -/
def ratingA : Rating :=
  { id := 1, domain_url := "example.com", user_hash := "u1", trust_level := 5,
    bias_level := 2, comment := none, created_at := 10, updated_at := 10 }

/-- A request with trust level out of range. -/
def reqBadTrust : SubmitRatingRequest :=
  { domain_url := "example.com", user_hash := "u1", trust_level := 6
    bias_level := 2, comment := none }

/-- Rating row the audit fixtures refer to. -/
def rating1 : Rating :=
  { id := 1, domain_url := "example.com", user_hash := "u1", trust_level := 5
    bias_level := 2, comment := none, created_at := 10, updated_at := 12 }

/-- First audit row for `rating1`, with a correct stored hash under
`idHash` and no comment. -/
def auditRow10 : AuditRow :=
  { id := 10, rating_id := 1, domain_url := "example.com", user_hash := "u1"
    action_type := "create", trust_level := some 5, bias_level := some 2
    comment := none, changed_at := 10
    change_hash := changeData 1 ("example.com") ("u1") (some 5) (some 2) none }

/-- Second audit row for `rating1`, with a correct stored hash under
`idHash`. -/
def auditRow11 : AuditRow :=
  { id := 11, rating_id := 1, domain_url := "example.com", user_hash := "u1"
    action_type := "update", trust_level := some 4, bias_level := some 2
    comment := none, changed_at := 12
    change_hash := changeData 1 ("example.com") ("u1") (some 4) (some 2) none }

/-- The second audit row with its `trust_level` field tampered from 4 to 3
(stored hash untouched). -/
def auditRow11Tampered : AuditRow :=
  { auditRow11 with trust_level := some 3 }

/-- The first audit row with its `comment` field mutated from `NULL` to the
empty string (stored hash untouched). -/
def auditRow10EmptyComment : AuditRow :=
  { auditRow10 with comment := some "" }

/-- Store with an intact two-entry audit history for `rating1`. -/
def dbAudit : Db :=
  { ratings := [rating1], auditLog := [auditRow10, auditRow11]
    aggregates := [], votes := [], nextId := 2 }

/-- `dbAudit` with the first audit row's comment mutated from `NULL` to the
empty string. -/
def dbAuditCommentMutated : Db :=
  { dbAudit with auditLog := [auditRow10EmptyComment, auditRow11] }

/-- Store holding `rating1` with no audit rows at all: an orphaned
rating. -/
def dbOrphan : Db :=
  { ratings := [rating1], auditLog := [], aggregates := [], votes := []
    nextId := 2 }

/-- Review listing fixture: an older rating (created at 1) by u1 and a newer
one (created at 2) by u2, where only the older one has a helpful vote. -/
def reviewOld : Rating :=
  { id := 1, domain_url := "d", user_hash := "u1", trust_level := 5
    bias_level := 2, comment := none, created_at := 1, updated_at := 1 }

/-- The newer, voteless review of the listing fixture. -/
def reviewNew : Rating :=
  { id := 2, domain_url := "d", user_hash := "u2", trust_level := 4
    bias_level := 3, comment := none, created_at := 2, updated_at := 2 }

/-- Store for the review-listing counterexample: one helpful vote on the
older rating. -/
def dbReviews : Db :=
  { ratings := [reviewOld, reviewNew], auditLog := [], aggregates := []
    votes := [{ rating_id := 1, voter_hash := "v1", is_helpful := true }]
    nextId := 3 }

/-- Desktop rating row mirroring Scenario A. -/
def drowA : Desktop.DomainRating :=
  { id := 1, domain_id := 1, user_id := "u1", trust_rating := 5
    bias_rating := 2, review_text := none, created_at := "10"
    updated_at := none, helpful_count := 0, reported := false }

/-- Desktop store holding the Scenario A rating for domain 1. -/
def ddbA : Desktop.Db := { ratings := [drowA], aggregates := [] }

/-- An empty desktop store. -/
def ddbEmpty : Desktop.Db := { ratings := [], aggregates := [] }

end Fixtures

/-! ## Helper lemmas -/

open RatingsServer Fixtures

theorem find?_map_replace {α : Type} (p : α → Bool) (row : α) (hrow : p row = true) :
    ∀ l : List α, l.any p = true →
      (l.map (fun a => if p a then row else a)).find? p = some row := by
  intro l
  induction l with
  | nil => intro h; simp at h
  | cons a t ih =>
    intro h
    by_cases hpa : p a = true
    · simp only [List.map_cons, if_pos hpa]
      exact List.find?_cons_of_pos _ hrow
    · have hpa' : p a = false := by simp [hpa]
      have ht : t.any p = true := by
        simp only [List.any_cons, hpa', Bool.false_or] at h
        exact h
      simp only [List.map_cons, if_neg hpa]
      rw [List.find?_cons_of_neg _ (by simp [hpa'])]
      exact ih ht

theorem find?_append_single {α : Type} (p : α → Bool) (row : α) (hrow : p row = true) :
    ∀ l : List α, l.any p = false → (l ++ [row]).find? p = some row := by
  intro l
  induction l with
  | nil => intro _; simpa [List.find?] using List.find?_cons_of_pos ([] : List α) hrow
  | cons a t ih =>
    intro h
    simp only [List.any_cons, Bool.or_eq_false_iff] at h
    rw [List.cons_append, List.find?_cons_of_neg _ (by simp [h.1])]
    exact ih h.2

theorem find?_upsertBy {α : Type} (p : α → Bool) (row : α) (l : List α)
    (hrow : p row = true) : (upsertBy p row l).find? p = some row := by
  unfold upsertBy
  by_cases h : l.any p = true
  · rw [if_pos h]
    exact find?_map_replace p row hrow l h
  · rw [if_neg h]
    exact find?_append_single p row hrow l (by simpa using h)

theorem mem_map_insertionSort {α β : Type} (r : α → α → Prop) [DecidableRel r]
    (f : α → β) (l : List α) (b : β) :
    b ∈ (List.insertionSort r l).map f ↔ ∃ a ∈ l, f a = b := by
  rw [List.mem_map]
  constructor
  · rintro ⟨x, hx, rfl⟩
    exact ⟨x, (List.perm_insertionSort r l).mem_iff.mp hx, rfl⟩
  · rintro ⟨x, hx, rfl⟩
    exact ⟨x, (List.perm_insertionSort r l).mem_iff.mpr hx, rfl⟩

theorem mem_jsonbDistribution (levels : List Int) (s : String) (c : Int) :
    (s, c) ∈ jsonbDistribution levels ↔
      ∃ l ∈ levels, s = toString l ∧
        c = ((levels.filter (fun x => x == l)).length : Int) := by
  unfold jsonbDistribution
  rw [(List.perm_insertionSort _ _).mem_iff, List.mem_map]
  constructor
  · rintro ⟨l, hl, heq⟩
    obtain ⟨hs, hc⟩ := Prod.mk.injEq .. ▸ heq
    exact ⟨l, List.mem_dedup.mp hl, hs.symm, hc.symm⟩
  · rintro ⟨l, hl, hs, hc⟩
    exact ⟨l, List.mem_dedup.mpr hl, by rw [← hs, ← hc]⟩

theorem refresh_aggregates_ratings (db : Db) (d : String) (now : Nat) :
    (refresh_aggregates db d now).ratings = db.ratings := by
  unfold refresh_aggregates
  split <;> rfl

theorem refresh_aggregates_auditLog (db : Db) (d : String) (now : Nat) :
    (refresh_aggregates db d now).auditLog = db.auditLog := by
  unfold refresh_aggregates
  split <;> rfl

theorem refresh_aggregates_of_empty (db : Db) (d : String) (now : Nat)
    (h : db.ratings.filter (fun r => r.domain_url == d) = []) :
    refresh_aggregates db d now = db := by
  unfold refresh_aggregates
  rw [h]
  rfl

theorem upsertRating_auditLog (db : Db) (req : SubmitRatingRequest) (now : Nat) :
    (upsertRating db req now).2.auditLog = db.auditLog := by
  unfold upsertRating
  cases db.ratings.find?
      (fun r => r.domain_url == req.domain_url && r.user_hash == req.user_hash) <;> rfl

theorem upsertRating_aggregates (db : Db) (req : SubmitRatingRequest) (now : Nat) :
    (upsertRating db req now).2.aggregates = db.aggregates := by
  unfold upsertRating
  cases db.ratings.find?
      (fun r => r.domain_url == req.domain_url && r.user_hash == req.user_hash) <;> rfl

theorem upsertRating_mem (db : Db) (req : SubmitRatingRequest) (now : Nat) :
    (upsertRating db req now).1 ∈ (upsertRating db req now).2.ratings := by
  unfold upsertRating
  cases hfind : db.ratings.find?
      (fun r => r.domain_url == req.domain_url && r.user_hash == req.user_hash) with
  | none => simp
  | some r =>
    simp only
    refine List.mem_map.mpr ⟨r, List.mem_of_find?_eq_some hfind, ?_⟩
    simp

theorem get_domain_rating_refresh (db : Db) (d : String) (now : Nat)
    (h : (db.ratings.filter (fun r => r.domain_url == d)).isEmpty = false) :
    get_domain_rating (refresh_aggregates db d now) d =
      Except.ok (serveAggregate (computedAggregate
        (db.ratings.filter (fun r => r.domain_url == d)) d now)) := by
  unfold refresh_aggregates get_domain_rating
  rw [if_neg (by simp [h])]
  dsimp only
  rw [find?_upsertBy (fun a => a.domain_url == d)
    (computedAggregate (db.ratings.filter (fun r => r.domain_url == d)) d now)
    db.aggregates (beq_self_eq_true d)]

theorem desktop_update_ratings (ddb : Desktop.Db) (did : Int) (now : String) :
    (Desktop.update_aggregates ddb did now).ratings = ddb.ratings := rfl

theorem desktop_get_update (ddb : Desktop.Db) (did : Int) (now : String) :
    Desktop.get_aggregate (Desktop.update_aggregates ddb did now) did =
      some (Desktop.computedAggregate
        (ddb.ratings.filter (fun r => r.domain_id == did)) did now) := by
  unfold Desktop.update_aggregates Desktop.get_aggregate
  dsimp only
  rw [find?_upsertBy (fun a => a.domain_id == did)
    (Desktop.computedAggregate (ddb.ratings.filter (fun r => r.domain_id == did)) did now)
    ddb.aggregates (beq_self_eq_true did)]

/-! ## Claim theorems -/

/-- C4: a submit request with `trust_level` outside `[1,5]` or `bias_level`
outside `[1,4]` fails with `ValidationError` (HTTP 400) and leaves the
store — ratings, audit log, and aggregates — exactly as it was. -/
theorem submit_rating_validation (refreshFails : Bool) (db : Db)
    (req : SubmitRatingRequest) (now : Nat)
    (h : req.trust_level < 1 ∨ req.trust_level > 5 ∨
         req.bias_level < 1 ∨ req.bias_level > 4) :
    submit_rating refreshFails db req now = (Except.error BAD_REQUEST, db) := by
  unfold submit_rating
  split
  · rfl
  · split
    · rfl
    · rename_i h1 h2
      exfalso
      rcases h with h | h | h | h
      · exact h1 (Or.inl h)
      · exact h1 (Or.inr h)
      · exact h2 (Or.inl h)
      · exact h2 (Or.inr h)

/-- Witness for C4: trust level 6 is rejected with 400 and the empty store
is untouched. -/
theorem submit_rating_validation_witness :
    submit_rating false emptyDb reqBadTrust 10 = (Except.error BAD_REQUEST, emptyDb) :=
  submit_rating_validation false emptyDb reqBadTrust 10 (Or.inr (Or.inl (by decide)))

/-- C8: calling the aggregate recompute twice with no intervening writes
yields an identical served `RatingAggregate` on the second call (on the
server, where the served aggregate carries no timestamp), and in the
desktop variant identical aggregate data apart from `last_updated`. -/
theorem recompute_idempotent (db : Db) (d : String) (t1 t2 : Nat)
    (ddb : Desktop.Db) (did : Int) (n1 n2 : String) :
    get_domain_rating (refresh_aggregates (refresh_aggregates db d t1) d t2) d =
      get_domain_rating (refresh_aggregates db d t1) d
  ∧ (Desktop.get_aggregate
      (Desktop.update_aggregates (Desktop.update_aggregates ddb did n1) did n2) did).map
        Desktop.aggregateData =
      (Desktop.get_aggregate (Desktop.update_aggregates ddb did n1) did).map
        Desktop.aggregateData := by
  constructor
  · by_cases h : (db.ratings.filter (fun r => r.domain_url == d)).isEmpty = true
    · have h0 : db.ratings.filter (fun r => r.domain_url == d) = [] := by
        simpa [List.isEmpty_iff] using h
      rw [refresh_aggregates_of_empty db d t1 h0, refresh_aggregates_of_empty db d t2 h0]
    · have h' : (db.ratings.filter (fun r => r.domain_url == d)).isEmpty = false := by
        simpa using h
      have hr : (refresh_aggregates db d t1).ratings = db.ratings :=
        refresh_aggregates_ratings db d t1
      have h2 : ((refresh_aggregates db d t1).ratings.filter
          (fun r => r.domain_url == d)).isEmpty = false := by
        rw [hr]; exact h'
      rw [get_domain_rating_refresh _ d t2 h2, get_domain_rating_refresh db d t1 h']
      rw [hr]
      rfl
  · rw [desktop_get_update, desktop_get_update, desktop_update_ratings]
    rfl

/-- C9: the health report's `orphaned_ratings` counts exactly the rating
rows with no audit entries, `is_healthy` holds iff both `orphaned_ratings`
and `invalid_audit_entries` are zero, and any rating row without an audit
entry forces `is_healthy = false`. -/
theorem integrity_status_spec (db : Db) (now : Nat) :
    (integrity_status db now).orphaned_ratings =
      ((db.ratings.filter
          (fun r => decide (∀ a ∈ db.auditLog, a.rating_id ≠ r.id))).length : Int)
  ∧ ((integrity_status db now).is_healthy = true ↔
      ((integrity_status db now).orphaned_ratings = 0 ∧
        (integrity_status db now).invalid_audit_entries = 0))
  ∧ (∀ r ∈ db.ratings, (∀ a ∈ db.auditLog, a.rating_id ≠ r.id) →
      (integrity_status db now).is_healthy = false) := by
  refine ⟨?_, ?_, ?_⟩
  · show orphanedCount db = _
    unfold orphanedCount
    congr 1
    rw [List.filter_congr]
    intro x _
    by_cases hx : ∀ a ∈ db.auditLog, a.rating_id ≠ x.id
    · have h1 : db.auditLog.any (fun a => a.rating_id == x.id) = false := by
        rw [Bool.eq_false_iff]
        intro hc
        obtain ⟨a, ha, hba⟩ := List.any_eq_true.mp hc
        exact hx a ha (beq_iff_eq.mp hba)
      simp only [h1, Bool.not_false]
      exact (decide_eq_true hx).symm
    · have hex : ∃ a ∈ db.auditLog, a.rating_id = x.id := by
        push_neg at hx
        exact hx
      obtain ⟨a, ha, hae⟩ := hex
      have h1 : db.auditLog.any (fun a => a.rating_id == x.id) = true :=
        List.any_eq_true.mpr ⟨a, ha, beq_iff_eq.mpr hae⟩
      simp [h1, hx]
  · show (orphanedCount db == 0 && (0 : Int) == 0) = true ↔
      (orphanedCount db = 0 ∧ (0 : Int) = 0)
    simp
  · intro r hr hor
    show (orphanedCount db == 0 && (0 : Int) == 0) = false
    have hany : db.auditLog.any (fun a => a.rating_id == r.id) = false := by
      rw [Bool.eq_false_iff]
      intro hc
      obtain ⟨a, ha, hba⟩ := List.any_eq_true.mp hc
      exact hor a ha (beq_iff_eq.mp hba)
    have hmem : r ∈ db.ratings.filter
        (fun s => !(db.auditLog.any (fun a => a.rating_id == s.id))) := by
      rw [List.mem_filter]
      exact ⟨hr, by simp [hany]⟩
    have hlen : (db.ratings.filter
        (fun s => !(db.auditLog.any (fun a => a.rating_id == s.id)))).length ≠ 0 := by
      intro h0
      rw [List.length_eq_zero] at h0
      rw [h0] at hmem
      exact (List.not_mem_nil r) hmem
    have hbeq : (orphanedCount db == 0) = false := by
      rw [Bool.eq_false_iff]
      intro hc
      have hc' := beq_iff_eq.mp hc
      unfold orphanedCount at hc'
      exact hlen (by exact_mod_cast hc')
    simp [hbeq]

/-- Witness for C9: a store holding one rating and no audit rows reports
one orphan and is unhealthy. -/
theorem integrity_status_spec_witness :
    (integrity_status dbOrphan 0).is_healthy = false ∧
      (integrity_status dbOrphan 0).orphaned_ratings = 1 :=
  ⟨(integrity_status_spec dbOrphan 0).2.2 rating1 (by decide) (by decide), by decide⟩

/-- C10: verifying a rating that exists but has no audit entries succeeds
with `is_valid = true`, zero changes, an empty entry list and absent
timestamps. -/
theorem verify_orphaned_rating (hashFn : String → String) (db : Db) (rid : Int)
    (hex : db.ratings.any (fun r => r.id == rid) = true)
    (hno : db.auditLog.filter (fun a => a.rating_id == rid) = []) :
    verify_rating_integrity hashFn db rid =
      Except.ok { rating_id := rid, is_valid := true, total_changes := 0,
                  created_at := none, last_modified := none, audit_entries := [] } := by
  have hentries : reportEntries hashFn db rid = [] := by
    unfold reportEntries auditTrailQuery
    rw [hno]
    rfl
  unfold verify_rating_integrity
  rw [if_pos hex, hentries]
  rfl

/-- Witness for C10: the orphaned rating of `dbOrphan` verifies as valid
with an empty history. -/
theorem verify_orphaned_rating_witness :
    verify_rating_integrity idHash dbOrphan 1 =
      Except.ok { rating_id := 1, is_valid := true, total_changes := 0,
                  created_at := none, last_modified := none, audit_entries := [] } :=
  verify_orphaned_rating idHash dbOrphan 1 (by decide) (by decide)

/-- Counterexample for C1: with the aggregate-refresh statement failing,
`submit_rating` reports an error (500) yet the rating row written by the
first statement stays committed — the store differs from the initial one —
because the two statements do not share a transaction; moreover even a
fully successful submit leaves the audit log untouched, since no statement
of `submit_rating` writes `rating_audit_log`. -/
theorem submit_atomicity_cex :
    (submit_rating true emptyDb reqA 10).1 = Except.error INTERNAL_SERVER_ERROR
  ∧ (submit_rating true emptyDb reqA 10).2 ≠ emptyDb
  ∧ (submit_rating true emptyDb reqA 10).2.ratings ≠ emptyDb.ratings
  ∧ (submit_rating false emptyDb reqA 10).1 =
      Except.ok { id := 1, domain_url := "example.com", user_hash := "u1",
                  trust_level := 5, bias_level := 2, comment := none,
                  created_at := 10, updated_at := 10 }
  ∧ (submit_rating false emptyDb reqA 10).2.auditLog = emptyDb.auditLog := by
  refine ⟨?_, ?_, ?_, ?_, ?_⟩ <;> decide

/-- C1 (amended): a valid submit runs exactly two separately committed
statements — the rating upsert, then the aggregate refresh — with no
enclosing transaction and no audit append: on success the audit log is
unchanged, and when the refresh statement fails the submit returns 500
while the upserted rating stays committed with the aggregates untouched. -/
theorem submit_two_separate_statements (db : Db) (req : SubmitRatingRequest)
    (now : Nat)
    (ht1 : 1 ≤ req.trust_level) (ht5 : req.trust_level ≤ 5)
    (hb1 : 1 ≤ req.bias_level) (hb4 : req.bias_level ≤ 4) :
    (submit_rating false db req now).1 = Except.ok (upsertRating db req now).1
  ∧ (submit_rating false db req now).2 =
      refresh_aggregates (upsertRating db req now).2 req.domain_url now
  ∧ (submit_rating false db req now).2.auditLog = db.auditLog
  ∧ (submit_rating true db req now).1 = Except.error INTERNAL_SERVER_ERROR
  ∧ (submit_rating true db req now).2 = (upsertRating db req now).2
  ∧ (submit_rating true db req now).2.aggregates = db.aggregates
  ∧ (submit_rating true db req now).2.auditLog = db.auditLog
  ∧ (upsertRating db req now).1 ∈ (submit_rating true db req now).2.ratings := by
  have hf : submit_rating false db req now =
      (Except.ok (upsertRating db req now).1,
        refresh_aggregates (upsertRating db req now).2 req.domain_url now) := by
    unfold submit_rating
    rw [if_neg (by omega), if_neg (by omega)]
    rfl
  have htr : submit_rating true db req now =
      (Except.error INTERNAL_SERVER_ERROR, (upsertRating db req now).2) := by
    unfold submit_rating
    rw [if_neg (by omega), if_neg (by omega)]
    rfl
  refine ⟨by rw [hf], by rw [hf], ?_, by rw [htr], by rw [htr], ?_, ?_, ?_⟩
  · rw [hf]
    show (refresh_aggregates (upsertRating db req now).2 req.domain_url now).auditLog
        = db.auditLog
    rw [refresh_aggregates_auditLog, upsertRating_auditLog]
  · rw [htr]
    exact upsertRating_aggregates db req now
  · rw [htr]
    exact upsertRating_auditLog db req now
  · rw [htr]
    exact upsertRating_mem db req now

/-- Witness for C1 (amended), at the Scenario A request on an empty
store. -/
theorem submit_two_separate_statements_witness :
    (submit_rating true emptyDb reqA 10).2 = (upsertRating emptyDb reqA 10).2
  ∧ (submit_rating false emptyDb reqA 10).2.auditLog = emptyDb.auditLog := by
  obtain ⟨-, -, h3, -, h5, -, -, -⟩ :=
    submit_two_separate_statements emptyDb reqA 10 (by decide) (by decide)
      (by decide) (by decide)
  exact ⟨h5, h3⟩

/-- Counterexample for C6: the server's recompute over a domain with no
rating rows inserts nothing at all — the `INSERT ... SELECT ... GROUP BY`
yields zero rows — so no aggregate with the neutral averages exists and the
aggregate endpoint returns 404. -/
theorem refresh_empty_domain_cex :
    refresh_aggregates emptyDb ("example.com") 5 = emptyDb
  ∧ get_domain_rating (refresh_aggregates emptyDb ("example.com") 5) ("example.com")
      = Except.error NOT_FOUND := by
  exact ⟨by decide, by decide⟩

/-- C6 (amended): on the server, recompute for a domain with no rating
rows leaves the store unchanged (writes no aggregate row at all); the
desktop variant is the one that stores the neutral midpoints
`avg_trust = 3.0`, `avg_bias = 2.5` with zero-filled distributions. -/
theorem recompute_empty_domain_spec :
    (∀ (db : Db) (d : String) (now : Nat),
        db.ratings.filter (fun r => r.domain_url == d) = [] →
        refresh_aggregates db d now = db)
  ∧ (∀ (ddb : Desktop.Db) (did : Int) (n : String),
        ddb.ratings.filter (fun r => r.domain_id == did) = [] →
        Desktop.get_aggregate (Desktop.update_aggregates ddb did n) did =
          some { domain_id := did, avg_trust := 3, avg_bias := 5 / 2,
                 total_ratings := 0, trust_distribution := [0, 0, 0, 0, 0],
                 bias_distribution := [0, 0, 0, 0], last_updated := some n }) := by
  constructor
  · exact fun db d now h => refresh_aggregates_of_empty db d now h
  · intro ddb did n h
    rw [desktop_get_update, h]
    rfl

/-- Witness for C6 (amended), on the empty server and desktop stores. -/
theorem recompute_empty_domain_spec_witness :
    refresh_aggregates emptyDb ("d") 3 = emptyDb
  ∧ Desktop.get_aggregate (Desktop.update_aggregates ddbEmpty 1 ("5")) 1 =
      some { domain_id := 1, avg_trust := 3, avg_bias := 5 / 2, total_ratings := 0,
             trust_distribution := [0, 0, 0, 0, 0], bias_distribution := [0, 0, 0, 0],
             last_updated := some ("5") } :=
  ⟨recompute_empty_domain_spec.1 emptyDb ("d") 3 (by decide),
   recompute_empty_domain_spec.2 ddbEmpty 1 ("5") (by decide)⟩

theorem dbA_aggregate : get_domain_rating dbA ("example.com") =
    Except.ok { domain_url := "example.com", avg_trust_level := 5,
                avg_bias_level := 2, total_ratings := 1,
                trust_distribution := [("5", 1)],
                bias_distribution := [("2", 1)] } := by
  have h1 := get_domain_rating_refresh (upsertRating emptyDb reqA 10).2
    ("example.com") 10 (by decide)
  have hrows : (upsertRating emptyDb reqA 10).2.ratings.filter
      (fun r => r.domain_url == ("example.com")) = [ratingA] := by decide
  rw [hrows] at h1
  have h2 : get_domain_rating dbA ("example.com") =
      Except.ok (serveAggregate (computedAggregate [ratingA] ("example.com") 10)) := h1
  rw [h2]
  congr 1
  unfold serveAggregate computedAggregate
  congr 1 <;> norm_num [ratingA, jsonbDistribution, jsonbKeyLe]

theorem ddbA_aggregate :
    Desktop.get_aggregate (Desktop.update_aggregates ddbA 1 ("10")) 1 =
      some { domain_id := 1, avg_trust := 5, avg_bias := 2, total_ratings := 1,
             trust_distribution := [0, 0, 0, 0, 1],
             bias_distribution := [0, 1, 0, 0],
             last_updated := some ("10") } := by
  rw [desktop_get_update]
  have hrows : ddbA.ratings.filter (fun r => r.domain_id == 1) = [drowA] := by decide
  rw [hrows]
  congr 1
  unfold Desktop.computedAggregate
  congr 1 <;>
    first
      | decide
      | norm_num [drowA, Desktop.trustDistArray, Desktop.biasDistArray]

/-- Counterexample for C5: after the Scenario A submission the stored
trust distribution is the one-entry `jsonb` object mapping level text "5"
to 1 — not a zero-filled vector over levels 1..5: level "1" has no entry
at all (lookup yields nothing) and the object has a single key. -/
theorem scenario_a_distribution_cex :
    get_domain_rating dbA ("example.com") =
      Except.ok { domain_url := "example.com", avg_trust_level := 5,
                  avg_bias_level := 2, total_ratings := 1,
                  trust_distribution := [("5", 1)],
                  bias_distribution := [("2", 1)] }
  ∧ (get_domain_rating dbA ("example.com")).toOption.map
      (fun a => a.trust_distribution.lookup ("1")) = some none
  ∧ (get_domain_rating dbA ("example.com")).toOption.map
      (fun a => a.trust_distribution.length) = some 1 := by
  refine ⟨dbA_aggregate, ?_, ?_⟩ <;> rw [dbA_aggregate] <;> rfl

/-- C5 (amended): over a non-empty rating set the server recompute stores
the arithmetic means and count, but its distributions are `jsonb` objects
holding exactly the levels with at least one rating (each with a positive
count), not zero-filled vectors; Scenario A therefore yields
`avg_trust = 5.0`, `avg_bias = 2.0`, `total = 1`, distributions
`[("5", 1)]` and `[("2", 1)]`.  The out-of-scope desktop variant does build
the zero-filled vectors of the claim. -/
theorem refresh_aggregates_distribution_spec (db : Db) (d : String) (now : Nat)
    (h : (db.ratings.filter (fun r => r.domain_url == d)).isEmpty = false) :
    get_domain_rating (refresh_aggregates db d now) d =
      Except.ok (serveAggregate (computedAggregate
        (db.ratings.filter (fun r => r.domain_url == d)) d now))
  ∧ (∀ s c, (s, c) ∈ (computedAggregate
        (db.ratings.filter (fun r => r.domain_url == d)) d now).trust_distribution ↔
      ∃ l ∈ (db.ratings.filter (fun r => r.domain_url == d)).map
          (fun r => r.trust_level),
        s = toString l ∧
        c = ((((db.ratings.filter (fun r => r.domain_url == d)).map
            (fun r => r.trust_level)).filter (fun x => x == l)).length : Int))
  ∧ (∀ s c, (s, c) ∈ (computedAggregate
        (db.ratings.filter (fun r => r.domain_url == d)) d now).bias_distribution ↔
      ∃ l ∈ (db.ratings.filter (fun r => r.domain_url == d)).map
          (fun r => r.bias_level),
        s = toString l ∧
        c = ((((db.ratings.filter (fun r => r.domain_url == d)).map
            (fun r => r.bias_level)).filter (fun x => x == l)).length : Int))
  ∧ (∀ s c, (s, c) ∈ (computedAggregate
        (db.ratings.filter (fun r => r.domain_url == d)) d now).trust_distribution →
      1 ≤ c)
  ∧ get_domain_rating dbA ("example.com") =
      Except.ok { domain_url := "example.com", avg_trust_level := 5,
                  avg_bias_level := 2, total_ratings := 1,
                  trust_distribution := [("5", 1)],
                  bias_distribution := [("2", 1)] }
  ∧ Desktop.get_aggregate (Desktop.update_aggregates ddbA 1 ("10")) 1 =
      some { domain_id := 1, avg_trust := 5, avg_bias := 2, total_ratings := 1,
             trust_distribution := [0, 0, 0, 0, 1],
             bias_distribution := [0, 1, 0, 0],
             last_updated := some ("10") } := by
  refine ⟨get_domain_rating_refresh db d now h, ?_, ?_, ?_, dbA_aggregate, ddbA_aggregate⟩
  · intro s c
    exact mem_jsonbDistribution _ s c
  · intro s c
    exact mem_jsonbDistribution _ s c
  · intro s c hmem
    obtain ⟨l, hl, _, hc⟩ := (mem_jsonbDistribution _ s c).mp hmem
    have hmem' : l ∈ ((db.ratings.filter (fun r => r.domain_url == d)).map
        (fun r => r.trust_level)).filter (fun x => x == l) :=
      List.mem_filter.mpr ⟨hl, beq_self_eq_true l⟩
    rw [hc]
    exact_mod_cast List.length_pos_of_mem hmem'

/-- Witness for C5 (amended): the general output equation applied to the
Scenario A store. -/
theorem refresh_aggregates_distribution_spec_witness :
    get_domain_rating (refresh_aggregates dbA ("example.com") 11) ("example.com") =
      Except.ok (serveAggregate (computedAggregate
        (dbA.ratings.filter (fun r => r.domain_url == ("example.com")))
        ("example.com") 11)) :=
  (refresh_aggregates_distribution_spec dbA ("example.com") 11 (by decide)).1

/-- Counterexample for C7: with an older review holding one helpful vote
and a newer voteless one, the server lists the newer review first — the
query orders by `created_at DESC` only — while the spec's helpful-count
order would list the older one first. -/
theorem reviews_order_cex :
    (get_domain_reviews dbReviews ("d")).map (fun r => r.id) = [2, 1]
  ∧ (spec_get_by_domain dbReviews ("d")).map (fun r => r.id) = [1, 2]
  ∧ get_domain_reviews dbReviews ("d") ≠ spec_get_by_domain dbReviews ("d")
  ∧ helpfulVotes dbReviews reviewOld = 1
  ∧ helpfulVotes dbReviews reviewNew = 0 := by
  refine ⟨?_, ?_, ?_, ?_, ?_⟩ <;> decide

/-- C7 (amended): the server returns the domain's reviews ordered by
`created_at` descending (helpful votes play no role), capped at 50, and the
rows are exactly the domain's rating rows whenever there are at most 50;
the desktop variant is the one ordering by `helpful_count` descending with
`created_at` descending as tie-break, and it caps the result only when the
caller passes a limit. -/
theorem reviews_order_spec (db : Db) (d : String) (ddb : Desktop.Db) (did : Int) :
    List.Sorted createdAtGe (get_domain_reviews db d)
  ∧ (get_domain_reviews db d).length ≤ 50
  ∧ (∀ r ∈ get_domain_reviews db d, r ∈ db.ratings ∧ r.domain_url = d)
  ∧ ((db.ratings.filter (fun r => r.domain_url == d)).length ≤ 50 →
      List.Perm (get_domain_reviews db d)
        (db.ratings.filter (fun r => r.domain_url == d)))
  ∧ List.Sorted Desktop.helpfulOrder (Desktop.get_domain_ratings ddb did none)
  ∧ List.Perm (Desktop.get_domain_ratings ddb did none)
      (ddb.ratings.filter (fun r => r.domain_id == did))
  ∧ (∀ n, List.Sorted Desktop.helpfulOrder (Desktop.get_domain_ratings ddb did (some n))
      ∧ (Desktop.get_domain_ratings ddb did (some n)).length ≤ n) := by
  refine ⟨?_, ?_, ?_, ?_, ?_, ?_, ?_⟩
  · exact List.Pairwise.sublist (List.take_sublist _ _)
      (List.sorted_insertionSort createdAtGe _)
  · exact List.length_take_le _ _
  · intro r hr
    have h1 : r ∈ List.insertionSort createdAtGe
        (db.ratings.filter (fun s => s.domain_url == d)) :=
      List.mem_of_mem_take hr
    have h2 : r ∈ db.ratings.filter (fun s => s.domain_url == d) :=
      (List.perm_insertionSort _ _).mem_iff.mp h1
    obtain ⟨hmem, hd⟩ := List.mem_filter.mp h2
    exact ⟨hmem, beq_iff_eq.mp hd⟩
  · intro hlen
    unfold get_domain_reviews
    rw [List.take_of_length_le]
    · exact List.perm_insertionSort _ _
    · rw [(List.perm_insertionSort createdAtGe _).length_eq]
      exact hlen
  · exact List.sorted_insertionSort _ _
  · exact List.perm_insertionSort _ _
  · intro n
    exact ⟨List.Pairwise.sublist (List.take_sublist _ _)
        (List.sorted_insertionSort _ _),
      List.length_take_le _ _⟩

/-- Witness for C7 (amended): the two-review store has at most 50 rows, so
the listing is a permutation of the domain's rows. -/
theorem reviews_order_spec_witness :
    List.Perm (get_domain_reviews dbReviews ("d"))
      (dbReviews.ratings.filter (fun r => r.domain_url == ("d"))) :=
  (reviews_order_spec dbReviews ("d") ddbEmpty 1).2.2.2.1 (by decide)

theorem verify_ok (hashFn : String → String) (db : Db) (rid : Int)
    (hany : db.ratings.any (fun r => r.id == rid) = true) :
    verify_rating_integrity hashFn db rid = Except.ok
      { rating_id := rid
        is_valid := (reportEntries hashFn db rid).all (fun e => e.hash_valid)
        total_changes := ((reportEntries hashFn db rid).length : Int)
        created_at := (reportEntries hashFn db rid).head?.map (fun e => e.changed_at)
        last_modified := (reportEntries hashFn db rid).getLast?.map (fun e => e.changed_at)
        audit_entries := reportEntries hashFn db rid } := by
  unfold verify_rating_integrity
  rw [if_pos hany]

theorem mem_reportEntries (hashFn : String → String) (db : Db) (rid : Int)
    (e : AuditEntry) :
    e ∈ reportEntries hashFn db rid ↔
      ∃ x ∈ db.auditLog.filter (fun a => a.rating_id == rid),
        mkAuditEntry hashFn rid x = e :=
  mem_map_insertionSort _ _ _ _

/-- C2: verify fails with 404 when no rating row has the id; otherwise it
returns a report whose entries are the rating's audit rows in ascending
`changed_at` order, each flagged by recomputing the change hash from the
entry's own stored fields with the write-time algorithm (an entry written
by the ledger's append always re-verifies), with `is_valid` the conjunction
of the flags, `total_changes` the number of audit rows, and
`created_at`/`last_modified` the first and last entry timestamps. -/
theorem verify_rating_integrity_spec (hashFn : String → String) (db : Db) (rid : Int) :
    ((∀ r ∈ db.ratings, r.id ≠ rid) →
      verify_rating_integrity hashFn db rid = Except.error NOT_FOUND)
  ∧ (∀ r ∈ db.ratings, r.id = rid →
      ∃ rep, verify_rating_integrity hashFn db rid = Except.ok rep
        ∧ rep.rating_id = rid
        ∧ List.Pairwise (fun (e e' : AuditEntry) => e.changed_at ≤ e'.changed_at)
            rep.audit_entries
        ∧ List.Perm rep.audit_entries
            ((db.auditLog.filter (fun a => a.rating_id == rid)).map
              (mkAuditEntry hashFn rid))
        ∧ (∀ e ∈ rep.audit_entries, ∃ a ∈ db.auditLog, a.rating_id = rid ∧
            e = mkAuditEntry hashFn rid a ∧
            e.hash_valid = (compute_change_hash hashFn rid a.domain_url a.user_hash
              a.trust_level a.bias_level a.comment == a.change_hash))
        ∧ rep.is_valid = rep.audit_entries.all (fun e => e.hash_valid)
        ∧ (rep.is_valid = true ↔ ∀ e ∈ rep.audit_entries, e.hash_valid = true)
        ∧ rep.total_changes =
            ((db.auditLog.filter (fun a => a.rating_id == rid)).length : Int)
        ∧ rep.created_at = rep.audit_entries.head?.map (fun e => e.changed_at)
        ∧ rep.last_modified = rep.audit_entries.getLast?.map (fun e => e.changed_at))
  ∧ (∀ (entryId : Int) (domain_url user_hash : String) (trust bias : Int)
        (comment : Option String) (action : String) (now : Nat),
      ∃ row, (auditLedgerAppend hashFn db entryId rid domain_url user_hash trust
          bias comment action now).auditLog = db.auditLog ++ [row]
        ∧ (mkAuditEntry hashFn rid row).hash_valid = true) := by
  refine ⟨?_, ?_, ?_⟩
  · intro h
    unfold verify_rating_integrity
    rw [if_neg]
    intro hc
    obtain ⟨r, hr, hbeq⟩ := List.any_eq_true.mp hc
    exact h r hr (beq_iff_eq.mp hbeq)
  · intro r hr hre
    have hany : db.ratings.any (fun s => s.id == rid) = true :=
      List.any_eq_true.mpr ⟨r, hr, beq_iff_eq.mpr hre⟩
    refine ⟨_, verify_ok hashFn db rid hany, rfl, ?_, ?_, ?_, rfl, ?_, ?_, rfl, rfl⟩
    rotate_right 1
    · show ((reportEntries hashFn db rid).length : Int) = _
      have hlen : (reportEntries hashFn db rid).length =
          (db.auditLog.filter (fun a => a.rating_id == rid)).length := by
        unfold reportEntries
        rw [List.length_map]
        exact (List.perm_insertionSort changedAtLe _).length_eq
      exact_mod_cast hlen
    · exact (List.sorted_insertionSort changedAtLe
        (db.auditLog.filter (fun a => a.rating_id == rid))).map
        (mkAuditEntry hashFn rid) (fun x y hxy => hxy)
    · exact (List.perm_insertionSort changedAtLe _).map (mkAuditEntry hashFn rid)
    · intro e he
      obtain ⟨x, hx, rfl⟩ := (mem_reportEntries hashFn db rid e).mp he
      obtain ⟨hlog, hbeq⟩ := List.mem_filter.mp hx
      exact ⟨x, hlog, beq_iff_eq.mp hbeq, rfl, rfl⟩
    · exact List.all_eq_true
  · intro entryId domain_url user_hash trust bias comment action now
    refine ⟨_, rfl, ?_⟩
    exact beq_self_eq_true _

/-- Witness for C2: an unknown rating id yields 404, and verification of
the intact two-entry history reports two changes. -/
theorem verify_rating_integrity_spec_witness :
    verify_rating_integrity idHash dbOrphan 99 = Except.error NOT_FOUND
  ∧ ∃ rep, verify_rating_integrity idHash dbAudit 1 = Except.ok rep ∧
      rep.total_changes = 2 := by
  constructor
  · exact (verify_rating_integrity_spec idHash dbOrphan 99).1 (by decide)
  · obtain ⟨rep, hok, -, -, -, -, -, -, htc, -, -⟩ :=
      (verify_rating_integrity_spec idHash dbAudit 1).2.1 rating1 (by decide) (by decide)
    refine ⟨rep, hok, ?_⟩
    rw [htc]
    decide

/-- Counterexample for C3: mutating the stored `comment` of an audit entry
from `NULL` to the empty string is a change of a stored field that the
checker cannot see — both serialize to the empty string in the hash
preimage — so verify still reports every entry valid and `is_valid = true`,
for any digest function (shown here at a concrete one). -/
theorem verify_comment_mutation_cex :
    dbAuditCommentMutated.auditLog ≠ dbAudit.auditLog
  ∧ auditRow10EmptyComment.comment ≠ auditRow10.comment
  ∧ auditRow10EmptyComment.change_hash = auditRow10.change_hash
  ∧ (verify_rating_integrity idHash dbAuditCommentMutated 1).toOption.map
      (fun r => r.is_valid) = some true
  ∧ (verify_rating_integrity idHash dbAuditCommentMutated 1).toOption.map
      (fun r => r.audit_entries.map (fun e => e.hash_valid)) = some [true, true] := by
  refine ⟨?_, ?_, ?_, ?_, ?_⟩ <;> decide

/-- C3 (amended): mutating a single stored field of one audit entry so
that its serialized change data actually differs (which excludes the
`rating_id` — changing it removes the entry from the queried history —
and hash-preimage-preserving mutations such as comment `NULL` ↔ `""`),
and assuming the digest does not collide on the two preimages, makes
verify flag exactly that entry invalid: the tampered entry reports
`hash_valid = false`, the overall report is invalid, and every other
entry of the report is unchanged. -/
theorem verify_tamper_detection (hashFn : String → String)
    (ratings : List Rating) (aggs : List AggregateRow) (votes : List VoteRow)
    (nid : Int) (l1 l2 : List AuditRow) (a a' : AuditRow) (rid : Int)
    (hrid : a.rating_id = rid)
    (hrid' : a'.rating_id = rid)
    (hid : a'.id = a.id)
    (hhash : a'.change_hash = a.change_hash)
    (hexists : ratings.any (fun r => r.id == rid) = true)
    (huniq : ∀ x ∈ l1 ++ l2, x.rating_id = rid → x.id ≠ a.id)
    (hvalid : a.change_hash = compute_change_hash hashFn rid a.domain_url a.user_hash
        a.trust_level a.bias_level a.comment)
    (htamper : compute_change_hash hashFn rid a'.domain_url a'.user_hash
        a'.trust_level a'.bias_level a'.comment ≠ a.change_hash) :
    ∃ rep rep',
      verify_rating_integrity hashFn (Db.mk ratings (l1 ++ a :: l2) aggs votes nid) rid
        = Except.ok rep
      ∧ verify_rating_integrity hashFn (Db.mk ratings (l1 ++ a' :: l2) aggs votes nid) rid
        = Except.ok rep'
      ∧ mkAuditEntry hashFn rid a' ∈ rep'.audit_entries
      ∧ (mkAuditEntry hashFn rid a').hash_valid = false
      ∧ (∀ e ∈ rep'.audit_entries, e.id = a.id → e = mkAuditEntry hashFn rid a')
      ∧ rep'.is_valid = false
      ∧ (∀ e ∈ rep'.audit_entries, e.id ≠ a.id → e ∈ rep.audit_entries)
      ∧ (∀ e ∈ rep.audit_entries, e.id ≠ a.id → e ∈ rep'.audit_entries)
      ∧ (mkAuditEntry hashFn rid a).hash_valid = true := by
  have hpa : (fun x : AuditRow => x.rating_id == rid) a = true := beq_iff_eq.mpr hrid
  have hpa' : (fun x : AuditRow => x.rating_id == rid) a' = true := beq_iff_eq.mpr hrid'
  have hL : (l1 ++ a :: l2).filter (fun x => x.rating_id == rid) =
      l1.filter (fun x => x.rating_id == rid) ++
        a :: l2.filter (fun x => x.rating_id == rid) := by
    simp only [List.filter_append, List.filter_cons, hpa, if_true]
  have hL' : (l1 ++ a' :: l2).filter (fun x => x.rating_id == rid) =
      l1.filter (fun x => x.rating_id == rid) ++
        a' :: l2.filter (fun x => x.rating_id == rid) := by
    simp only [List.filter_append, List.filter_cons, hpa', if_true]
  have hflag' : (mkAuditEntry hashFn rid a').hash_valid = false := by
    show (compute_change_hash hashFn rid a'.domain_url a'.user_hash
      a'.trust_level a'.bias_level a'.comment == a'.change_hash) = false
    rw [hhash]
    exact beq_eq_false_iff_ne.mpr htamper
  have hflag : (mkAuditEntry hashFn rid a).hash_valid = true := by
    show (compute_change_hash hashFn rid a.domain_url a.user_hash
      a.trust_level a.bias_level a.comment == a.change_hash) = true
    rw [hvalid]
    exact beq_self_eq_true _
  refine ⟨_, _, verify_ok hashFn _ rid hexists, verify_ok hashFn _ rid hexists,
    ?_, hflag', ?_, ?_, ?_, ?_, hflag⟩
  · show mkAuditEntry hashFn rid a' ∈
      reportEntries hashFn (Db.mk ratings (l1 ++ a' :: l2) aggs votes nid) rid
    refine (mem_reportEntries hashFn _ rid _).mpr ⟨a', ?_, rfl⟩
    show a' ∈ (l1 ++ a' :: l2).filter (fun x => x.rating_id == rid)
    rw [hL']
    exact List.mem_append_right _ (List.mem_cons_self _ _)
  · intro e he heid
    obtain ⟨x, hx, rfl⟩ := (mem_reportEntries hashFn _ rid e).mp he
    rw [show (Db.mk ratings (l1 ++ a' :: l2) aggs votes nid).auditLog =
        l1 ++ a' :: l2 from rfl, hL'] at hx
    rcases List.mem_append.mp hx with h1 | h2
    · obtain ⟨hmem, hbeq⟩ := List.mem_filter.mp h1
      exact absurd heid
        (huniq x (List.mem_append_left l2 hmem) (beq_iff_eq.mp hbeq))
    · rcases List.mem_cons.mp h2 with rfl | h3
      · rfl
      · obtain ⟨hmem, hbeq⟩ := List.mem_filter.mp h3
        exact absurd heid
          (huniq x (List.mem_append_right l1 hmem) (beq_iff_eq.mp hbeq))
  · show (reportEntries hashFn (Db.mk ratings (l1 ++ a' :: l2) aggs votes nid) rid).all
      (fun e => e.hash_valid) = false
    rw [Bool.eq_false_iff]
    intro hall
    have hmem' : mkAuditEntry hashFn rid a' ∈
        reportEntries hashFn (Db.mk ratings (l1 ++ a' :: l2) aggs votes nid) rid := by
      refine (mem_reportEntries hashFn _ rid _).mpr ⟨a', ?_, rfl⟩
      show a' ∈ (l1 ++ a' :: l2).filter (fun x => x.rating_id == rid)
      rw [hL']
      exact List.mem_append_right _ (List.mem_cons_self _ _)
    have := List.all_eq_true.mp hall _ hmem'
    rw [hflag'] at this
    exact Bool.false_ne_true this
  · intro e he hne
    obtain ⟨x, hx, rfl⟩ := (mem_reportEntries hashFn _ rid e).mp he
    rw [show (Db.mk ratings (l1 ++ a' :: l2) aggs votes nid).auditLog =
        l1 ++ a' :: l2 from rfl, hL'] at hx
    refine (mem_reportEntries hashFn _ rid _).mpr ⟨x, ?_, rfl⟩
    show x ∈ (l1 ++ a :: l2).filter (fun y => y.rating_id == rid)
    rw [hL]
    rcases List.mem_append.mp hx with h1 | h2
    · exact List.mem_append_left _ h1
    · rcases List.mem_cons.mp h2 with rfl | h3
      · exact absurd hid hne
      · exact List.mem_append_right _ (List.mem_cons_of_mem a h3)
  · intro e he hne
    obtain ⟨x, hx, rfl⟩ := (mem_reportEntries hashFn _ rid e).mp he
    rw [show (Db.mk ratings (l1 ++ a :: l2) aggs votes nid).auditLog =
        l1 ++ a :: l2 from rfl, hL] at hx
    refine (mem_reportEntries hashFn _ rid _).mpr ⟨x, ?_, rfl⟩
    show x ∈ (l1 ++ a' :: l2).filter (fun y => y.rating_id == rid)
    rw [hL']
    rcases List.mem_append.mp hx with h1 | h2
    · exact List.mem_append_left _ h1
    · rcases List.mem_cons.mp h2 with rfl | h3
      · exact absurd rfl hne
      · exact List.mem_append_right _ (List.mem_cons_of_mem a' h3)

/-- Witness for C3 (amended): tampering the trust level of the second audit
entry of a concrete two-entry history makes verify report the history
invalid. -/
theorem verify_tamper_detection_witness :
    ∃ rep', verify_rating_integrity idHash
        (Db.mk [rating1] [auditRow10, auditRow11Tampered] [] [] 2) 1 = Except.ok rep'
      ∧ rep'.is_valid = false := by
  obtain ⟨rep, rep', hok, hok', hmem, hfalse, honly, hinv, h7, h8, h9⟩ :=
    verify_tamper_detection idHash [rating1] [] [] 2 [auditRow10] []
      auditRow11 auditRow11Tampered 1 (by decide) (by decide) (by decide) (by decide)
      (by decide) (by decide) (by decide) (by decide)
  exact ⟨rep', hok', hinv⟩
